import Mathlib

/-!
Verification development for the TradeBot signal-generation and backtest core.

Embedding conventions, used throughout:
* Go `float64` arithmetic is modelled by exact rational arithmetic (`ℚ`);
  all statements are about the exact real-number semantics of the formulas.
* A Go function that can panic (nil-slice indexing, out-of-range access) is
  modelled as an `Option`-returning function, `none` marking the panic.
* A Go function returning `(T, error)` is modelled as `Except String T`.
* `time.Time` instants are modelled by integers ordered as the instants are.
* External collaborators (the price repository, the injected strategy
  manager) are modelled as function parameters, mirroring the dependency
  injection in the Go constructors.
* Go slices become `List`; reading `s[i]` where the index is known in range
  is modelled with `List.getD i 0` (or an explicit default record).
-/

/-! ### List index helpers -/

/-- Reading an index inside the left part of an append. -/
theorem listGetD_append_of_lt {α : Type} (l1 l2 : List α) (i : ℕ) (d : α)
    (h : i < l1.length) : (l1 ++ l2).getD i d = l1.getD i d := by
  induction l1 generalizing i with
  | nil => simp at h
  | cons a t ih =>
    cases i with
    | zero => rfl
    | succ j =>
      simp only [List.cons_append, List.getD_cons_succ]
      exact ih j (by simpa using h)

/-- Reading an index past the left part of an append. -/
theorem listGetD_append_of_le {α : Type} (l1 l2 : List α) (i : ℕ) (d : α)
    (h : l1.length ≤ i) : (l1 ++ l2).getD i d = l2.getD (i - l1.length) d := by
  induction l1 generalizing i with
  | nil => simp
  | cons a t ih =>
    cases i with
    | zero => simp at h
    | succ j =>
      simp only [List.cons_append, List.getD_cons_succ, List.length_cons]
      rw [ih j (by simpa using h)]
      congr 1
      omega

/-- Reading inside a dropped list shifts the index. -/
theorem listGetD_drop {α : Type} (l : List α) (n i : ℕ) (d : α) :
    (l.drop n).getD i d = l.getD (n + i) d := by
  induction l generalizing n with
  | nil => simp
  | cons a t ih =>
    cases n with
    | zero => simp
    | succ m =>
      simp only [List.drop_succ_cons]
      rw [ih m]
      have : m + 1 + i = (m + i) + 1 := by omega
      rw [this, List.getD_cons_succ]

/-- Reading a map over `List.range` returns the function value. -/
theorem listGetD_map_range {α : Type} (f : ℕ → α) (n i : ℕ) (d : α) (h : i < n) :
    ((List.range n).map f).getD i d = f i := by
  induction n with
  | zero => omega
  | succ m ih =>
    rw [List.range_succ, List.map_append]
    by_cases hm : i < m
    · rw [listGetD_append_of_lt _ _ _ _ (by simpa using hm)]
      exact ih hm
    · have him : i = m := by omega
      subst him
      rw [listGetD_append_of_le _ _ _ _ (by simp)]
      simp

/-- A list of nonnegative entries has nonnegative reads (default 0). -/
theorem listGetD_nonneg {l : List ℚ} (h : ∀ y ∈ l, 0 ≤ y) (i : ℕ) :
    0 ≤ l.getD i 0 := by
  induction l generalizing i with
  | nil => simp
  | cons a t ih =>
    cases i with
    | zero => exact h a (by simp)
    | succ j =>
      simp only [List.getD_cons_succ]
      exact ih (fun y hy => h y (List.mem_cons_of_mem _ hy)) j

/-! ### Indicator engine: EMA (internal/services/indicators/EMA.go) -/

namespace EMA

/-- Go `validateInputs`: rejects empty input, nonpositive period, or a series
shorter than the period. -/
def validateInputs (prices : List ℚ) (period : ℤ) : Bool :=
  ¬ (prices.length = 0 ∨ period ≤ 0 ∨ (prices.length : ℤ) < period)

/-- Go `getMultiplier`: the smoothing factor 2/(period+1). -/
def getMultiplier (period : ℤ) : ℚ :=
  2 / ((period : ℚ) + 1)

/-- Go `calculateInitialSMA`: simple mean of the first `period` prices. -/
def calculateInitialSMA (prices : List ℚ) (period : ℕ) : ℚ :=
  (prices.take period).sum / (period : ℚ)

/-- Go `calculatePoint`: one EMA update step. -/
def calculatePoint (price prevEMA multiplier : ℚ) : ℚ :=
  (price - prevEMA) * multiplier + prevEMA

/-- The fill loop of `Calculate`: starting from the seed, apply
`calculatePoint` to each remaining price, emitting each value. -/
def emaFrom (k prev : ℚ) : List ℚ → List ℚ
  | [] => []
  | p :: ps => calculatePoint p prev k :: emaFrom k (calculatePoint p prev k) ps

/-- The array built by the body of `Calculate`: indices before `period-1`
keep the Go zero value, index `period-1` holds the seed SMA, later indices
come from the fill loop. -/
def emaList (prices : List ℚ) (p : ℕ) (k : ℚ) : List ℚ :=
  List.replicate (p - 1) 0
    ++ calculateInitialSMA prices p
       :: emaFrom k (calculateInitialSMA prices p) (prices.drop p)

/-- Go `Calculate`: full-series EMA.  Returns `none` (Go `nil`) on invalid
input. -/
def Calculate (prices : List ℚ) (period : ℤ) : Option (List ℚ) :=
  if validateInputs prices period then
    some (emaList prices period.toNat (getMultiplier period))
  else
    none

theorem emaFrom_length (k prev : ℚ) (ps : List ℚ) :
    (emaFrom k prev ps).length = ps.length := by
  induction ps generalizing prev with
  | nil => rfl
  | cons p ps ih => simp [emaFrom, ih]

theorem emaFrom_getD_succ (k : ℚ) (ps : List ℚ) (prev : ℚ) (j : ℕ)
    (h : j + 1 < ps.length) :
    (emaFrom k prev ps).getD (j + 1) 0
      = calculatePoint (ps.getD (j + 1) 0) ((emaFrom k prev ps).getD j 0) k := by
  induction ps generalizing prev j with
  | nil => simp at h
  | cons p ps ih =>
    cases j with
    | zero =>
      cases ps with
      | nil => simp at h
      | cons q qs => simp [emaFrom]
    | succ j =>
      have hh : j + 1 < ps.length := by simpa using h
      simpa [emaFrom] using ih (calculatePoint p prev k) j hh

/-- Every value emitted by the fill loop is nonnegative when the inputs, the
seed and the multiplier behave (0 ≤ k ≤ 1). -/
theorem emaFrom_mem_nonneg {k prev : ℚ} {ps : List ℚ}
    (hk0 : 0 ≤ k) (hk1 : k ≤ 1) (hprev : 0 ≤ prev)
    (hps : ∀ x ∈ ps, 0 ≤ x) : ∀ y ∈ emaFrom k prev ps, 0 ≤ y := by
  induction ps generalizing prev with
  | nil => simp [emaFrom]
  | cons p ps ih =>
    intro y hy
    have hp : 0 ≤ p := hps p (by simp)
    have hv : 0 ≤ calculatePoint p prev k := by
      unfold calculatePoint
      nlinarith [mul_nonneg hk0 hp, mul_nonneg hprev (sub_nonneg.2 hk1)]
    simp only [emaFrom, List.mem_cons] at hy
    rcases hy with h | h
    · exact h ▸ hv
    · exact ih hv (fun x hx => hps x (List.mem_cons_of_mem _ hx)) y h

/-- Inverting a successful `Calculate`: the input was valid. -/
theorem Calculate_some_inv {prices : List ℚ} {period : ℤ} {l : List ℚ}
    (h : Calculate prices period = some l) :
    1 ≤ period ∧ (period : ℤ) ≤ (prices.length : ℤ) ∧ prices.length ≠ 0 := by
  unfold Calculate at h
  split at h
  · rename_i hv
    unfold validateInputs at hv
    have hv2 : ¬ (prices.length = 0 ∨ period ≤ 0 ∨ (prices.length : ℤ) < period) := by
      simpa using hv
    push_neg at hv2
    exact ⟨by omega, by omega, hv2.1⟩
  · exact absurd h (by simp)

/-- Invalid inputs give `none` (Go `nil`). -/
theorem Calculate_eq_none {prices : List ℚ} {period : ℤ}
    (h : period ≤ 0 ∨ (prices.length : ℤ) < period) :
    Calculate prices period = none := by
  unfold Calculate validateInputs
  rcases h with h | h <;> simp [h]

/-- On valid input, `Calculate` returns the built array. -/
theorem Calculate_eq_some (prices : List ℚ) (period : ℤ)
    (h1 : 1 ≤ period) (h2 : period ≤ (prices.length : ℤ)) :
    Calculate prices period
      = some (emaList prices period.toNat (getMultiplier period)) := by
  have hv : validateInputs prices period = true := by
    unfold validateInputs
    simp only [decide_eq_true_eq, Bool.not_eq_true', decide_eq_false_iff_not]
    push_neg
    refine ⟨by omega, by omega, by omega⟩
  unfold Calculate
  simp [hv]

theorem emaList_length (prices : List ℚ) (p : ℕ) (k : ℚ)
    (hp : 1 ≤ p) (hpn : p ≤ prices.length) :
    (emaList prices p k).length = prices.length := by
  unfold emaList
  simp only [List.length_append, List.length_replicate, List.length_cons,
    emaFrom_length, List.length_drop]
  omega

/-- The seed: index `p-1` holds the simple mean of the first `p` prices. -/
theorem emaList_seed (prices : List ℚ) (p : ℕ) (k : ℚ) :
    (emaList prices p k).getD (p - 1) 0 = calculateInitialSMA prices p := by
  unfold emaList
  rw [listGetD_append_of_le _ _ _ _ (by simp)]
  simp

/-- Reading the built array at an index in the loop range lands in the
emitted loop output. -/
theorem emaList_getD_of_ge (prices : List ℚ) (p : ℕ) (k : ℚ)
    (hp : 1 ≤ p) (i : ℕ) (hip : p ≤ i) :
    (emaList prices p k).getD i 0
      = (emaFrom k (calculateInitialSMA prices p) (prices.drop p)).getD (i - p) 0 := by
  unfold emaList
  rw [listGetD_append_of_le _ _ _ _ (by simp; omega)]
  have h1 : i - (List.replicate (p - 1) (0 : ℚ)).length = (i - p) + 1 := by
    simp only [List.length_replicate]
    omega
  rw [h1, List.getD_cons_succ]

/-- The EMA recurrence holds at every index in the loop range. -/
theorem emaList_recurrence (prices : List ℚ) (p : ℕ) (k : ℚ)
    (hp : 1 ≤ p) (i : ℕ) (hip : p ≤ i) (hin : i < prices.length) :
    (emaList prices p k).getD i 0
      = calculatePoint (prices.getD i 0) ((emaList prices p k).getD (i - 1) 0) k := by
  have hrest : (prices.drop p).length = prices.length - p := by simp
  rw [emaList_getD_of_ge prices p k hp i hip]
  rcases Nat.lt_or_ge p i with hlt | hge
  · -- i > p: use the loop-step lemma and fold the previous index back
    have hj : (i - p - 1) + 1 = i - p := by omega
    have hj2 : (i - p - 1) + 1 < (prices.drop p).length := by omega
    rw [← hj, emaFrom_getD_succ _ _ _ _ hj2, hj]
    rw [listGetD_drop]
    have hpi : p + (i - p) = i := by omega
    rw [hpi]
    congr 1
    rw [emaList_getD_of_ge prices p k hp (i - 1) (by omega)]
    congr 1
    omega
  · -- i = p: the first loop iteration starts from the seed
    have hip' : p = i := by omega
    subst hip'
    have hlen : 0 < (prices.drop p).length := by omega
    obtain ⟨q, qs, hq⟩ : ∃ q qs, prices.drop p = q :: qs := by
      cases hd : prices.drop p with
      | nil => rw [hd] at hlen; simp at hlen
      | cons q qs => exact ⟨q, qs, rfl⟩
    have hq0 : q = prices.getD p 0 := by
      have := listGetD_drop prices p 0 (0 : ℚ)
      rw [hq] at this
      simpa using this
    rw [hq, Nat.sub_self]
    simp only [emaFrom, List.getD_cons_zero]
    rw [emaList_seed, ← hq0]

theorem getMultiplier_nonneg {period : ℤ} (h : 1 ≤ period) :
    0 ≤ getMultiplier period := by
  unfold getMultiplier
  have : (0 : ℚ) < (period : ℚ) + 1 := by
    have : (1 : ℚ) ≤ (period : ℚ) := by exact_mod_cast h
    linarith
  positivity

theorem getMultiplier_le_one {period : ℤ} (h : 1 ≤ period) :
    getMultiplier period ≤ 1 := by
  unfold getMultiplier
  have h1 : (1 : ℚ) ≤ (period : ℚ) := by exact_mod_cast h
  rw [div_le_one (by linarith)]
  linarith

theorem calculateInitialSMA_nonneg {prices : List ℚ}
    (h : ∀ x ∈ prices, 0 ≤ x) (p : ℕ) :
    0 ≤ calculateInitialSMA prices p := by
  unfold calculateInitialSMA
  apply div_nonneg _ (by positivity)
  exact List.sum_nonneg fun x hx => h x (List.take_subset p prices hx)

/-- Every entry of a successfully computed EMA over nonnegative prices is
nonnegative. -/
theorem Calculate_getD_nonneg {prices : List ℚ} {period : ℤ} {l : List ℚ}
    (hps : ∀ x ∈ prices, 0 ≤ x) (h : Calculate prices period = some l) (i : ℕ) :
    0 ≤ l.getD i 0 := by
  obtain ⟨h1, h2, _⟩ := Calculate_some_inv h
  rw [Calculate_eq_some prices period h1 h2] at h
  have hl : l = emaList prices period.toNat (getMultiplier period) := by
    injection h with h
    exact h.symm
  subst hl
  apply listGetD_nonneg
  intro y hy
  unfold emaList at hy
  rw [List.mem_append, List.mem_cons] at hy
  rcases hy with hy | hy | hy
  · rw [List.eq_of_mem_replicate hy]
  · exact hy ▸ calculateInitialSMA_nonneg hps _
  · exact emaFrom_mem_nonneg (getMultiplier_nonneg h1) (getMultiplier_le_one h1)
      (calculateInitialSMA_nonneg hps _)
      (fun x hx => hps x (List.drop_subset _ _ hx)) y hy

end EMA

/-- C1: for every price series with at least `period` entries and positive
`period`, `EMA.Calculate` seeds index `period-1` with the simple mean of the
first `period` prices and satisfies
`ema[i] = (price[i] - ema[i-1]) * (2/(period+1)) + ema[i-1]` for every
`period ≤ i < len`; for shorter input or nonpositive period it returns an
absent (`nil`) result. -/
theorem C1_ema_calculate (prices : List ℚ) (period : ℤ) :
    ((period ≤ 0 ∨ (prices.length : ℤ) < period) → EMA.Calculate prices period = none)
    ∧ (1 ≤ period → period ≤ (prices.length : ℤ) →
        ∃ ema, EMA.Calculate prices period = some ema
          ∧ ema.length = prices.length
          ∧ ema.getD (period.toNat - 1) 0 = EMA.calculateInitialSMA prices period.toNat
          ∧ ∀ i : ℕ, period.toNat ≤ i → i < prices.length →
              ema.getD i 0
                = (prices.getD i 0 - ema.getD (i - 1) 0) * (2 / ((period : ℚ) + 1))
                  + ema.getD (i - 1) 0) := by
  constructor
  · exact EMA.Calculate_eq_none
  · intro h1 h2
    refine ⟨EMA.emaList prices period.toNat (EMA.getMultiplier period),
      EMA.Calculate_eq_some prices period h1 h2,
      EMA.emaList_length _ _ _ (by omega) (by omega),
      EMA.emaList_seed _ _ _,
      fun i hip hin => ?_⟩
    have := EMA.emaList_recurrence prices period.toNat (EMA.getMultiplier period)
      (by omega) i hip hin
    simpa [EMA.calculatePoint, EMA.getMultiplier] using this

/-! ### Indicator engine: RSI (internal/services/indicators/RSI.go) -/

/-- Result record of `RSIService.Calculate`. -/
structure RSIResult where
  rsi : List ℚ
  signal : List ℚ
  histogram : List ℚ
  divergence : List ℚ
deriving DecidableEq

namespace RSI

/-- The gains array: entry 0 keeps the Go zero value, entry i holds the
positive part of the i-th price change. -/
def gainsAux : ℚ → List ℚ → List ℚ
  | _, [] => []
  | prev, p :: ps => (if p - prev > 0 then p - prev else 0) :: gainsAux p ps

def gainsOf : List ℚ → List ℚ
  | [] => []
  | p :: ps => 0 :: gainsAux p ps

/-- The losses array: entry 0 keeps the Go zero value, entry i holds the
absolute value of a nonpositive i-th price change. -/
def lossesAux : ℚ → List ℚ → List ℚ
  | _, [] => []
  | prev, p :: ps => (if p - prev > 0 then 0 else |p - prev|) :: lossesAux p ps

def lossesOf : List ℚ → List ℚ
  | [] => []
  | p :: ps => 0 :: lossesAux p ps

/-- The RSI array: indices below `period` keep the Go zero value; above,
100 when the averaged loss is zero, else `100 - 100/(1+rs)`. -/
def rsiListOf (p : ℕ) (avgGain avgLoss : List ℚ) (n : ℕ) : List ℚ :=
  (List.range n).map fun i =>
    if i < p then 0
    else if avgLoss.getD i 0 = 0 then 100
    else 100 - 100 / (1 + avgGain.getD i 0 / avgLoss.getD i 0)

/-- Go `calculateDivergence`: compares 5-candle price and RSI deltas. -/
def calculateDivergence (prices rsi : List ℚ) : List ℚ :=
  if prices.length < 5 then List.replicate prices.length 0
  else
    (List.range prices.length).map fun i =>
      if i < 4 then 0
      else
        if prices.getD i 0 - prices.getD (i - 4) 0 > 0
            ∧ rsi.getD i 0 - rsi.getD (i - 4) 0 < 0 then -1
        else if prices.getD i 0 - prices.getD (i - 4) 0 < 0
            ∧ rsi.getD i 0 - rsi.getD (i - 4) 0 > 0 then 1
        else 0

/-- Go `RSIService.Calculate` (the variant with a smoothed signal line).
Returns `none` for rejected input and for inputs on which the Go code would
panic indexing a `nil` EMA slice (nonpositive period, or an invalid smooth
period while the histogram loop range is nonempty). -/
def Calculate (prices : List ℚ) (period smoothPeriod : ℤ) : Option RSIResult :=
  let n := prices.length
  if (n : ℤ) < period + 1 then none
  else
    match EMA.Calculate (gainsOf prices) period, EMA.Calculate (lossesOf prices) period with
    | some avgGain, some avgLoss =>
      let p := period.toNat
      let rsi := rsiListOf p avgGain avgLoss n
      match EMA.Calculate rsi smoothPeriod with
      | some signal =>
        let histogram := (List.range n).map fun i =>
          if i < p + smoothPeriod.toNat then 0 else rsi.getD i 0 - signal.getD i 0
        some ⟨rsi, signal, histogram, calculateDivergence prices rsi⟩
      | none =>
        if p + smoothPeriod.toNat < n then none
        else some ⟨rsi, [], List.replicate n 0, calculateDivergence prices rsi⟩
    | _, _ => none

/-- The EMA-averaged loss series of a price series (empty when the EMA is
`nil`), used to state when RSI is exactly 100. -/
def avgLossList (prices : List ℚ) (period : ℤ) : List ℚ :=
  (EMA.Calculate (lossesOf prices) period).getD []

theorem gainsAux_nonneg (prev : ℚ) (ps : List ℚ) :
    ∀ x ∈ gainsAux prev ps, 0 ≤ x := by
  induction ps generalizing prev with
  | nil => simp [gainsAux]
  | cons p ps ih =>
    intro x hx
    simp only [gainsAux, List.mem_cons] at hx
    rcases hx with hx | hx
    · subst hx
      split <;> [linarith [lt_of_lt_of_le (by assumption : (0:ℚ) < p - prev) le_rfl]; rfl]
    · exact ih p x hx

theorem gainsOf_nonneg (prices : List ℚ) : ∀ x ∈ gainsOf prices, 0 ≤ x := by
  cases prices with
  | nil => simp [gainsOf]
  | cons p ps =>
    intro x hx
    simp only [gainsOf, List.mem_cons] at hx
    rcases hx with hx | hx
    · exact le_of_eq hx.symm
    · exact gainsAux_nonneg p ps x hx

theorem lossesAux_nonneg (prev : ℚ) (ps : List ℚ) :
    ∀ x ∈ lossesAux prev ps, 0 ≤ x := by
  induction ps generalizing prev with
  | nil => simp [lossesAux]
  | cons p ps ih =>
    intro x hx
    simp only [lossesAux, List.mem_cons] at hx
    rcases hx with hx | hx
    · subst hx
      split <;> [rfl; exact abs_nonneg _]
    · exact ih p x hx

theorem lossesOf_nonneg (prices : List ℚ) : ∀ x ∈ lossesOf prices, 0 ≤ x := by
  cases prices with
  | nil => simp [lossesOf]
  | cons p ps =>
    intro x hx
    simp only [lossesOf, List.mem_cons] at hx
    rcases hx with hx | hx
    · exact le_of_eq hx.symm
    · exact lossesAux_nonneg p ps x hx

/-- Inversion of a successful `Calculate`: the RSI list is the indexed RSI
formula over the gain/loss EMAs. -/
theorem Calculate_rsi_inv {prices : List ℚ} {period smoothPeriod : ℤ} {res : RSIResult}
    (h : Calculate prices period smoothPeriod = some res) :
    ∃ avgGain,
      EMA.Calculate (gainsOf prices) period = some avgGain
      ∧ EMA.Calculate (lossesOf prices) period = some (avgLossList prices period)
      ∧ res.rsi = rsiListOf period.toNat avgGain (avgLossList prices period) prices.length := by
  unfold Calculate at h
  dsimp only at h
  by_cases hlen : ((prices.length : ℤ) < period + 1)
  · rw [if_pos hlen] at h
    exact absurd h (by simp)
  · rw [if_neg hlen] at h
    rcases hg : EMA.Calculate (gainsOf prices) period with _ | avgGain <;> rw [hg] at h
    · simp at h
    rcases hl : EMA.Calculate (lossesOf prices) period with _ | avgLoss <;> rw [hl] at h
    · simp at h
    dsimp only at h
    have hALL : avgLossList prices period = avgLoss := by
      unfold avgLossList
      rw [hl]
      rfl
    refine ⟨avgGain, rfl, by rw [hALL], ?_⟩
    rw [hALL]
    rcases hs : EMA.Calculate (rsiListOf period.toNat avgGain avgLoss prices.length) smoothPeriod
      with _ | signal <;> rw [hs] at h <;> dsimp only at h
    · split at h
      · exact absurd h (by simp)
      · injection h with h
        rw [← h]
    · injection h with h
      rw [← h]

end RSI

/-- C5: on every accepted input, every defined RSI value (indices from
`period` on) lies in [0,100], and equals 100 exactly when the EMA-averaged
loss at that index is 0. -/
theorem C5_rsi_range (prices : List ℚ) (period smoothPeriod : ℤ) (res : RSIResult)
    (h : RSI.Calculate prices period smoothPeriod = some res)
    (i : ℕ) (hip : period.toNat ≤ i) (hin : i < prices.length) :
    0 ≤ res.rsi.getD i 0 ∧ res.rsi.getD i 0 ≤ 100
      ∧ (res.rsi.getD i 0 = 100 ↔ (RSI.avgLossList prices period).getD i 0 = 0) := by
  obtain ⟨avgGain, hg, hl, hrsi⟩ := RSI.Calculate_rsi_inv h
  have hgnn : 0 ≤ avgGain.getD i 0 :=
    EMA.Calculate_getD_nonneg (RSI.gainsOf_nonneg prices) hg i
  have hlnn : 0 ≤ (RSI.avgLossList prices period).getD i 0 :=
    EMA.Calculate_getD_nonneg (RSI.lossesOf_nonneg prices) hl i
  rw [hrsi]
  unfold RSI.rsiListOf
  rw [listGetD_map_range _ _ _ _ hin, if_neg (not_lt.2 hip)]
  set g := avgGain.getD i 0 with hgdef
  set l := (RSI.avgLossList prices period).getD i 0 with hldef
  by_cases hl0 : l = 0
  · rw [if_pos hl0]
    refine ⟨by norm_num, le_refl _, by simp [hl0]⟩
  · rw [if_neg hl0]
    have hlpos : 0 < l := lt_of_le_of_ne hlnn (Ne.symm hl0)
    have hrs : 0 ≤ g / l := div_nonneg hgnn (le_of_lt hlpos)
    have hdenpos : (0 : ℚ) < 1 + g / l := by linarith
    have hqpos : 0 < 100 / (1 + g / l) := by positivity
    have hqle : 100 / (1 + g / l) ≤ 100 :=
      div_le_self (by norm_num) (by linarith)
    refine ⟨by linarith, by linarith, ?_⟩
    constructor
    · intro habs
      exfalso
      linarith
    · intro habs
      exact absurd habs hl0

/-- Witness result for C5: RSI(period=2, smooth=2) over the rising series
[1,2,3]. -/
def rsiWitnessRes : RSIResult :=
  ⟨[0, 0, 100], [0, 0, 200/3], [0, 0, 0], [0, 0, 0]⟩

/-- Witness for C5: over the monotonically increasing series [1,2,3] the
defined RSI value is 100 and the averaged loss there is 0. -/
theorem C5_rsi_range_witness :
    RSI.Calculate [(1 : ℚ), 2, 3] 2 2 = some rsiWitnessRes
    ∧ 0 ≤ rsiWitnessRes.rsi.getD 2 0 ∧ rsiWitnessRes.rsi.getD 2 0 ≤ 100
    ∧ (rsiWitnessRes.rsi.getD 2 0 = 100
        ↔ (RSI.avgLossList [(1 : ℚ), 2, 3] 2).getD 2 0 = 0) := by
  have h : RSI.Calculate [(1 : ℚ), 2, 3] 2 2 = some rsiWitnessRes := by
    norm_num [RSI.Calculate, RSI.gainsOf, RSI.gainsAux, RSI.lossesOf, RSI.lossesAux,
      RSI.rsiListOf, RSI.calculateDivergence, rsiWitnessRes,
      EMA.Calculate, EMA.validateInputs, EMA.emaList, EMA.emaFrom,
      EMA.calculateInitialSMA, EMA.getMultiplier, EMA.calculatePoint,
      show Int.toNat 2 = 2 from rfl, List.range_succ,
      List.take_succ_cons, List.sum_cons, List.replicate]
  exact ⟨h, C5_rsi_range [(1 : ℚ), 2, 3] 2 2 rsiWitnessRes h 2 (by decide) (by decide)⟩

/-- Witness for C1: the spec scenario EMA(period=3) over [1,2,3,4,5] gives
[_,_,2,3,4], and a two-element series is rejected. -/
theorem C1_ema_calculate_witness :
    EMA.Calculate [(1 : ℚ), 2, 3, 4, 5] 3 = some [0, 0, 2, 3, 4]
    ∧ EMA.Calculate [(1 : ℚ), 2] 3 = none := by
  refine ⟨?_, (C1_ema_calculate [(1 : ℚ), 2] 3).1 (by norm_num)⟩
  norm_num [EMA.Calculate, EMA.validateInputs, EMA.emaList, EMA.emaFrom,
    EMA.calculateInitialSMA, EMA.getMultiplier, EMA.calculatePoint,
    show Int.toNat 3 = 3 from rfl,
    List.take_succ_cons, List.sum_cons, List.replicate]

/-! ### Data model (internal/models, backtest/types.go) -/

/-- models.Price: one OHLCV candle.  Field `Open` is rendered `openP` (a Lean
keyword clash); every field defaults to the Go zero value. -/
structure Price where
  symbol : String := ""
  openTime : ℤ := 0
  closeTime : ℤ := 0
  openP : ℚ := 0
  high : ℚ := 0
  low : ℚ := 0
  close : ℚ := 0
  volume : ℚ := 0
  tradeCount : ℤ := 0
deriving DecidableEq, Inhabited

/-- backtest.Trade: the core trade record. -/
structure Trade where
  symbol : String := ""
  entryTime : ℤ := 0
  exitTime : ℤ := 0
  side : String := ""
  entryPrice : ℚ := 0
  exitPrice : ℚ := 0
  size : ℚ := 0
  stopLoss : ℚ := 0
  takeProfit : ℚ := 0
  pnl : ℚ := 0
  reason : String := ""
deriving DecidableEq, Inhabited

/-- backtest.EquityPoint. -/
structure EquityPoint where
  timestamp : ℤ := 0
  balance : ℚ := 0
deriving DecidableEq, Inhabited

/-- analysis.VolumeData (the fields surfaced by VolumeAnalyzer.Analyze). -/
structure VolumeData where
  volumeRatio : ℚ := 0
  tradeCount : ℤ := 0
  avgTradeSize : ℚ := 0
  confidence : ℚ := 0
deriving DecidableEq, Inhabited

/-- analysis.TechnicalData with the nested anonymous EMA/RSI structs
flattened into prefixed fields. -/
structure TechnicalData where
  signal : ℤ := 0
  confidence : ℚ := 0
  emaValue8 : ℚ := 0
  emaValue21 : ℚ := 0
  emaDirection : ℤ := 0
  emaSlope : ℚ := 0
  emaStrength : ℚ := 0
  rsiValue : ℚ := 0
  rsiSignal : ℚ := 0
  rsiHistogram : ℚ := 0
  rsiDivergence : ℚ := 0
  rsiTrend : ℤ := 0
  rsiStrength : ℚ := 0
  rsiCrossAbove : Bool := false
  rsiCrossBelow : Bool := false
deriving DecidableEq, Inhabited

/-- analysis.PriceData. -/
structure PriceData where
  current : ℚ := 0
  momentum : ℚ := 0
  volatility : ℚ := 0
  confidence : ℚ := 0
  signal : ℤ := 0
deriving DecidableEq, Inhabited

/-- strategy.StrategyResult. -/
structure StrategyResult where
  isValid : Bool := false
  direction : String := ""
  reason : String := ""
  entryPrice : ℚ := 0
  stopLoss : ℚ := 0
  takeProfit : ℚ := 0
  confidence : ℚ := 0
  volume : VolumeData := {}
  technical : TechnicalData := {}
  price : PriceData := {}
deriving DecidableEq, Inhabited

/-- models.Position (every field defaults to the Go zero value). -/
structure ModelsPosition where
  symbol : String := ""
  side : String := ""
  size : ℚ := 0
  leverage : ℤ := 0
  entryPrice : ℚ := 0
  stopLossPrice : ℚ := 0
  takeProfitPrice : ℚ := 0
  pnl : ℚ := 0
  openTime : ℤ := 0
  closeTime : ℤ := 0
  status : String := ""
  confidence : ℚ := 0
deriving DecidableEq, Inhabited

/-! ### Backtest exit logic (BacktestEngine.go and the Simulator) -/

namespace Engine

/-- Go `Engine.shouldExitPosition`. -/
def shouldExitPosition (trade : Trade) (price : Price) : Bool :=
  if trade.side = "long" then
    price.high ≥ trade.takeProfit || price.low ≤ trade.stopLoss
  else
    price.low ≤ trade.takeProfit || price.high ≥ trade.stopLoss

/-- Go `Engine.getExitReason`: take-profit is tested before stop-loss. -/
def getExitReason (trade : Trade) (price : Price) : String :=
  if trade.side = "long" then
    if price.high ≥ trade.takeProfit then "take_profit"
    else if price.low ≤ trade.stopLoss then "stop_loss"
    else "unknown"
  else
    if price.low ≤ trade.takeProfit then "take_profit"
    else if price.high ≥ trade.stopLoss then "stop_loss"
    else "unknown"

/-- Go `Engine.closePosition`, trade-record part: the recorded exit price is
the closing price of the bar, and pnl is computed from it. -/
def closeTrade (leverage : ℤ) (trade : Trade) (price : Price) (reason : String) : Trade :=
  let pnlPercent :=
    if trade.side = "long" then (price.close - trade.entryPrice) / trade.entryPrice
    else (trade.entryPrice - price.close) / trade.entryPrice
  { trade with
      exitTime := price.openTime
      exitPrice := price.close
      reason := reason
      pnl := trade.size * pnlPercent * (leverage : ℚ) }

end Engine

namespace Simulator

/-- Go `Simulator.determineExitPrice`: the take-profit level on a TP hit, the
stop-loss level on a SL hit, the bar close otherwise. -/
def determineExitPrice (pos : Trade) (candle : Price) : ℚ :=
  if pos.side = "long" then
    if candle.high ≥ pos.takeProfit then pos.takeProfit
    else if candle.low ≤ pos.stopLoss then pos.stopLoss
    else candle.close
  else
    if candle.low ≤ pos.takeProfit then pos.takeProfit
    else if candle.high ≥ pos.stopLoss then pos.stopLoss
    else candle.close

/-- Go `Simulator.determineExitReason`: same priority, fallback "reversal". -/
def determineExitReason (pos : Trade) (candle : Price) : String :=
  if pos.side = "long" then
    if candle.high ≥ pos.takeProfit then "take_profit"
    else if candle.low ≤ pos.stopLoss then "stop_loss"
    else "reversal"
  else
    if candle.low ≤ pos.takeProfit then "take_profit"
    else if candle.high ≥ pos.stopLoss then "stop_loss"
    else "reversal"

/-- Go `Simulator.closePosition`, trade-record part. -/
def closeTrade (leverage : ℤ) (pos : Trade) (candle : Price) : Trade :=
  let exitPrice := determineExitPrice pos candle
  let reason := determineExitReason pos candle
  let pnlPercent :=
    if pos.side = "long" then (exitPrice - pos.entryPrice) / pos.entryPrice
    else (pos.entryPrice - exitPrice) / pos.entryPrice
  { pos with
      exitTime := candle.openTime
      exitPrice := exitPrice
      reason := reason
      pnl := pos.size * pnlPercent * (leverage : ℚ) }

/-- The models.Position literal built by `Simulator.ProcessCandle` before
consulting the Strategy Manager: only Symbol, Side, Size and OpenTime are
copied; every other field, Confidence included, keeps the Go zero value. -/
def toModelPosition (pos : Trade) : ModelsPosition :=
  { symbol := pos.symbol, side := pos.side, size := pos.size, openTime := pos.entryTime }

end Simulator

/-! ### Strategy manager reversal decision (StrategyManager.analyzeReversal) -/

namespace StrategyManager

/-- The reversal margin installed by `NewStrategyManager`. -/
def reversalDelta0 : ℚ := 1/10

/-- The decision logic of `analyzeReversal` once the opposite-direction
evaluator has produced `result` (lines after the direction dispatch). -/
def reversalDecision (reversalDelta : ℚ) (position : ModelsPosition)
    (result : StrategyResult) : StrategyResult :=
  if ¬ result.isValid then
    { isValid := false, reason := "no reversal setup found" }
  else if result.confidence > position.confidence + reversalDelta then
    result
  else
    { isValid := false, reason := "insufficient confidence for reversal" }

end StrategyManager

/-- C2: for a long position, the exit reason is "take_profit" exactly when
the bar high reaches the take-profit level (tested before the stop-loss
test), and "stop_loss" exactly when the high misses take-profit and the low
reaches stop-loss; for a short position the same priority holds with low and
high mirrored; in particular a bar containing both levels exits at
take-profit.  This holds for both exit-reason functions in the repo. -/
theorem C2_exit_priority (trade : Trade) (price : Price) :
    (trade.side = "long" →
      ((price.low ≤ trade.takeProfit ∧ trade.takeProfit ≤ price.high
          ∧ price.low ≤ trade.stopLoss ∧ trade.stopLoss ≤ price.high) →
          Engine.getExitReason trade price = "take_profit"
          ∧ Simulator.determineExitReason trade price = "take_profit")
      ∧ (Engine.getExitReason trade price = "take_profit" ↔ price.high ≥ trade.takeProfit)
      ∧ (price.high < trade.takeProfit →
          (Engine.getExitReason trade price = "stop_loss" ↔ price.low ≤ trade.stopLoss))
      ∧ (Simulator.determineExitReason trade price = "take_profit" ↔ price.high ≥ trade.takeProfit)
      ∧ (price.high < trade.takeProfit →
          (Simulator.determineExitReason trade price = "stop_loss" ↔ price.low ≤ trade.stopLoss)))
    ∧ (trade.side = "short" →
      ((price.low ≤ trade.takeProfit ∧ trade.takeProfit ≤ price.high
          ∧ price.low ≤ trade.stopLoss ∧ trade.stopLoss ≤ price.high) →
          Engine.getExitReason trade price = "take_profit"
          ∧ Simulator.determineExitReason trade price = "take_profit")
      ∧ (Engine.getExitReason trade price = "take_profit" ↔ price.low ≤ trade.takeProfit)
      ∧ (trade.takeProfit < price.low →
          (Engine.getExitReason trade price = "stop_loss" ↔ price.high ≥ trade.stopLoss))
      ∧ (Simulator.determineExitReason trade price = "take_profit" ↔ price.low ≤ trade.takeProfit)
      ∧ (trade.takeProfit < price.low →
          (Simulator.determineExitReason trade price = "stop_loss" ↔ price.high ≥ trade.stopLoss))) := by
  constructor
  · intro hs
    unfold Engine.getExitReason Simulator.determineExitReason
    rw [if_pos hs, if_pos hs]
    by_cases h1 : price.high ≥ trade.takeProfit
    · rw [if_pos h1, if_pos h1]
      refine ⟨fun _ => ⟨rfl, rfl⟩, iff_of_true rfl h1,
        fun hc => absurd h1 (not_le.2 hc), iff_of_true rfl h1,
        fun hc => absurd h1 (not_le.2 hc)⟩
    · rw [if_neg h1, if_neg h1]
      by_cases h2 : price.low ≤ trade.stopLoss
      · rw [if_pos h2, if_pos h2]
        refine ⟨fun hc => absurd hc.2.1 h1, iff_of_false (by decide) h1,
          fun _ => iff_of_true rfl h2, iff_of_false (by decide) h1,
          fun _ => iff_of_true rfl h2⟩
      · rw [if_neg h2, if_neg h2]
        refine ⟨fun hc => absurd hc.2.2.2 (by push_neg at h1; intro hsl; linarith),
          iff_of_false (by decide) h1, fun _ => iff_of_false (by decide) h2,
          iff_of_false (by decide) h1, fun _ => iff_of_false (by decide) h2⟩
  · intro hs
    have hne : ¬ (trade.side = "long") := by
      rw [hs]
      decide
    unfold Engine.getExitReason Simulator.determineExitReason
    rw [if_neg hne, if_neg hne]
    by_cases h1 : price.low ≤ trade.takeProfit
    · rw [if_pos h1, if_pos h1]
      refine ⟨fun _ => ⟨rfl, rfl⟩, iff_of_true rfl h1,
        fun hc => absurd h1 (not_le.2 hc), iff_of_true rfl h1,
        fun hc => absurd h1 (not_le.2 hc)⟩
    · rw [if_neg h1, if_neg h1]
      by_cases h2 : price.high ≥ trade.stopLoss
      · rw [if_pos h2, if_pos h2]
        refine ⟨fun hc => absurd hc.1 h1, iff_of_false (by decide) h1,
          fun _ => iff_of_true rfl h2, iff_of_false (by decide) h1,
          fun _ => iff_of_true rfl h2⟩
      · rw [if_neg h2, if_neg h2]
        refine ⟨fun hc => absurd hc.1 h1,
          iff_of_false (by decide) h1, fun _ => iff_of_false (by decide) h2,
          iff_of_false (by decide) h1, fun _ => iff_of_false (by decide) h2⟩

/-- Witness for C2: a long trade whose bar contains both levels exits at
take-profit in both engines. -/
theorem C2_exit_priority_witness :
    Engine.getExitReason { side := "long", stopLoss := 99, takeProfit := 101 }
        { high := 102, low := 98 } = "take_profit"
    ∧ Simulator.determineExitReason { side := "long", stopLoss := 99, takeProfit := 101 }
        { high := 102, low := 98 } = "take_profit" :=
  ((C2_exit_priority { side := "long", stopLoss := 99, takeProfit := 101 }
      { high := 102, low := 98 }).1 rfl).1 (by norm_num)

/-- Counterexample data for C3: a long trade with entry 100 and take-profit
101, closed by the Engine on a bar with high 102 and close 100.5. -/
def c3Trade : Trade :=
  { symbol := "X", side := "long", entryPrice := 100, stopLoss := 99 + 2/5,
    takeProfit := 101, size := 1 }

def c3Candle : Price :=
  { symbol := "X", openTime := 1, high := 102, low := 100, close := 100 + 1/2 }

/-- C3 counterexample: on a bar whose high reaches the take-profit level,
`Engine.closePosition` records the bar close (100.5) as exit price, so the
trade pnl is size·leverage·0.005, not size·leverage·0.01 as claimed. -/
theorem C3_counterexample :
    Engine.shouldExitPosition c3Trade c3Candle = true
    ∧ c3Candle.high ≥ c3Trade.takeProfit
    ∧ (Engine.closeTrade 1 c3Trade c3Candle (Engine.getExitReason c3Trade c3Candle)).exitPrice
        ≠ c3Trade.takeProfit
    ∧ (Engine.closeTrade 1 c3Trade c3Candle (Engine.getExitReason c3Trade c3Candle)).pnl
        ≠ c3Trade.size * 1 * (1/100)
    ∧ (Engine.closeTrade 1 c3Trade c3Candle (Engine.getExitReason c3Trade c3Candle)).pnl
        = c3Trade.size * 1 * (1/200) := by
  refine ⟨?_, by norm_num [c3Trade, c3Candle], ?_, ?_, ?_⟩ <;>
    norm_num [Engine.shouldExitPosition, Engine.closeTrade, Engine.getExitReason,
      c3Trade, c3Candle]

/-- C3 amended: in both engines the pnl is size × leverage × signed_return
computed from the recorded exit price; the Simulator records the take-profit
level on a long TP hit (hence pnl = size × leverage × 0.01 in the
entry-100/target-101 scenario), while the Engine records the bar close. -/
theorem C3_pnl_formula (lev : ℤ) (pos : Trade) (candle : Price) (reason : String) :
    ((Simulator.closeTrade lev pos candle).pnl
        = pos.size * (lev : ℚ)
          * (if pos.side = "long"
              then (Simulator.determineExitPrice pos candle - pos.entryPrice) / pos.entryPrice
              else (pos.entryPrice - Simulator.determineExitPrice pos candle) / pos.entryPrice))
    ∧ (pos.side = "long" → candle.high ≥ pos.takeProfit →
        (Simulator.closeTrade lev pos candle).exitPrice = pos.takeProfit)
    ∧ (pos.side = "long" → pos.entryPrice = 100 → pos.takeProfit = 101 →
        candle.high ≥ pos.takeProfit →
        (Simulator.closeTrade lev pos candle).pnl = pos.size * (lev : ℚ) * (1/100))
    ∧ (Engine.closeTrade lev pos candle reason).exitPrice = candle.close
    ∧ (Engine.closeTrade lev pos candle reason).pnl
        = pos.size * (lev : ℚ)
          * (if pos.side = "long"
              then (candle.close - pos.entryPrice) / pos.entryPrice
              else (pos.entryPrice - candle.close) / pos.entryPrice) := by
  refine ⟨?_, ?_, ?_, rfl, ?_⟩
  · unfold Simulator.closeTrade
    split <;> ring
  · intro hs htp
    unfold Simulator.closeTrade Simulator.determineExitPrice
    rw [if_pos hs, if_pos htp]
  · intro hs he htp hh
    unfold Simulator.closeTrade Simulator.determineExitPrice
    simp only [if_pos hs, if_pos hh]
    rw [he, htp]
    norm_num
    try ring
  · unfold Engine.closeTrade
    split <;> ring

/-- Witness for C3 amended: the Simulator closes the scenario trade at the
take-profit level with pnl = size × leverage × 0.01. -/
theorem C3_pnl_formula_witness :
    (Simulator.closeTrade 1 c3Trade c3Candle).exitPrice = c3Trade.takeProfit
    ∧ (Simulator.closeTrade 1 c3Trade c3Candle).pnl = c3Trade.size * 1 * (1/100) := by
  have h := C3_pnl_formula 1 c3Trade c3Candle ""
  exact ⟨h.2.1 rfl (by norm_num [c3Trade, c3Candle]),
    h.2.2.1 rfl rfl rfl (by norm_num [c3Trade, c3Candle])⟩

/-- The reversal decision fires (returns a valid result) exactly when the
new confidence strictly exceeds the position confidence plus the margin. -/
theorem StrategyManager.reversalDecision_fires_iff (delta : ℚ)
    (position : ModelsPosition) (result : StrategyResult)
    (hv : result.isValid = true) :
    ((StrategyManager.reversalDecision delta position result).isValid = true)
      ↔ result.confidence > position.confidence + delta := by
  unfold StrategyManager.reversalDecision
  rw [if_neg (by simp [hv])]
  by_cases hc : result.confidence > position.confidence + delta
  · rw [if_pos hc]
    exact iff_of_true hv hc
  · rw [if_neg hc]
    exact iff_of_false (by simp) hc

/-- C4: given any open position and a valid opposite-direction result, the
reversal decision fires exactly when the new confidence strictly exceeds the
current position confidence plus the reversal margin; at the boundary it
returns invalid with reason "insufficient confidence for reversal"; an
invalid opposite result gives reason "no reversal setup found"; and the
default margin installed by NewStrategyManager is 0.1. -/
theorem C4_reversal_margin (delta : ℚ) (position : ModelsPosition)
    (result : StrategyResult) :
    (result.isValid = true →
      (((StrategyManager.reversalDecision delta position result).isValid = true)
          ↔ result.confidence > position.confidence + delta)
      ∧ (result.confidence > position.confidence + delta →
          StrategyManager.reversalDecision delta position result = result)
      ∧ (result.confidence = position.confidence + delta →
          StrategyManager.reversalDecision delta position result
            = { isValid := false, reason := "insufficient confidence for reversal" }))
    ∧ (result.isValid = false →
        StrategyManager.reversalDecision delta position result
          = { isValid := false, reason := "no reversal setup found" })
    ∧ StrategyManager.reversalDelta0 = 1/10 := by
  refine ⟨fun hv => ⟨StrategyManager.reversalDecision_fires_iff delta position result hv,
    ?_, ?_⟩, fun hv => ?_, rfl⟩
  · intro hc
    unfold StrategyManager.reversalDecision
    rw [if_neg (by simp [hv]), if_pos hc]
  · intro hc
    unfold StrategyManager.reversalDecision
    rw [if_neg (by simp [hv]), if_neg (by rw [hc]; exact lt_irrefl _)]
  · unfold StrategyManager.reversalDecision
    rw [if_pos (by simp [hv])]

/-- Witness for C4: with position confidence 0.5 and margin 0.1, an opposite
result at confidence 2/3 fires, and one exactly at 0.6 is rejected with the
insufficient-confidence reason. -/
theorem C4_reversal_margin_witness :
    (StrategyManager.reversalDecision (1/10) { confidence := 1/2 }
        { isValid := true, confidence := 2/3 }).isValid = true
    ∧ StrategyManager.reversalDecision (1/10) { confidence := 1/2 }
        { isValid := true, confidence := 3/5 }
      = { isValid := false, reason := "insufficient confidence for reversal" } := by
  constructor
  · exact ((C4_reversal_margin (1/10) { confidence := 1/2 }
      { isValid := true, confidence := 2/3 }).1 rfl).1.mpr (by norm_num)
  · exact ((C4_reversal_margin (1/10) { confidence := 1/2 }
      { isValid := true, confidence := 3/5 }).1 rfl).2.2 (by norm_num)

/-- C10: the position record the Simulator hands to the Strategy Manager
carries confidence 0 (the stored entry confidence is never copied), so with
the default margin a reversal fires exactly when the opposite-direction
confidence exceeds 0.1, whatever the original entry confidence was. -/
theorem C10_zero_confidence_reversal (pos : Trade) (result : StrategyResult) :
    (Simulator.toModelPosition pos).confidence = 0
    ∧ (result.isValid = true →
        (((StrategyManager.reversalDecision StrategyManager.reversalDelta0
            (Simulator.toModelPosition pos) result).isValid = true)
          ↔ result.confidence > 1/10)) := by
  refine ⟨rfl, fun hv => ?_⟩
  rw [StrategyManager.reversalDecision_fires_iff StrategyManager.reversalDelta0
    (Simulator.toModelPosition pos) result hv]
  unfold Simulator.toModelPosition StrategyManager.reversalDelta0
  norm_num

/-- Witness for C10: a reversal fires at opposite confidence 0.2 against a
position opened with high stored confidence (0.9 in the simulator trade is
not carried over). -/
theorem C10_zero_confidence_reversal_witness :
    (StrategyManager.reversalDecision StrategyManager.reversalDelta0
        (Simulator.toModelPosition { symbol := "X", side := "long", size := 1 })
        { isValid := true, confidence := 1/5 }).isValid = true := by
  exact ((C10_zero_confidence_reversal { symbol := "X", side := "long", size := 1 }
    { isValid := true, confidence := 1/5 }).2 rfl).mpr (by norm_num)

/-! ### Volume analyzer (analysis.VolumeAnalyzer) -/

namespace VolumeAnalyzer

/-- analysis.timeframeVolumeMetrics. -/
structure TimeframeVolumeMetrics where
  volumeRatio : ℚ := 0
  tradeCount : ℤ := 0
  avgTradeSize : ℚ := 0
  confidence : ℚ := 0
  volumeTrend : ℚ := 0
  trendStrength : ℚ := 0
  weightedVolume : ℚ := 0
deriving DecidableEq, Inhabited

/-- Go `VolumeAnalyzer.calculateConfidence`: note that the size component has
no lower clamp and the total has no final clamp. -/
def calculateConfidence (volumeRatio tradeRatio avgTradeSize trendStrength : ℚ) : ℚ :=
  let minVolumeRatio : ℚ := 13/10
  let minTradeRatio : ℚ := 12/10
  let volComponent := max 0 (min ((volumeRatio - minVolumeRatio) / (2 - minVolumeRatio)) 1)
  let tradeComponent := max 0 (min ((tradeRatio - minTradeRatio) / (2 - minTradeRatio)) 1)
  let sizeComponent := min (avgTradeSize / 1000) 1
  let trendComponent := trendStrength * (3/10)
  volComponent * (4/10) + tradeComponent * (2/10) + sizeComponent * (1/10) + trendComponent

/-- The volume-trend loop: counts adjacent volume increases. -/
def countUpTicks : List Price → ℚ
  | [] => 0
  | [_] => 0
  | a :: b :: rest => (if b.volume > a.volume then 1 else 0) + countUpTicks (b :: rest)

/-- The progressive weighting loop, weight 1.1^i from the start of the
window. -/
def weightedVolumeSum : ℕ → List Price → ℚ
  | _, [] => 0
  | i, p :: ps => p.volume * (11/10) ^ i + weightedVolumeSum (i + 1) ps

def totalWeightSum : ℕ → List Price → ℚ
  | _, [] => 0
  | i, _ :: ps => (11/10) ^ i + totalWeightSum (i + 1) ps

/-- Go `VolumeAnalyzer.analyzeTimeframe`.  Out-of-range reads that cannot
occur at the call sites (window ≥ 2) are modelled with a default record. -/
def analyzeTimeframe (prices : List Price) (window : ℕ) : Except String TimeframeVolumeMetrics :=
  if prices.length < window then
    .error ("insufficient data, need " ++ toString window ++ " bars")
  else
    let recent := prices.drop (prices.length - window)
    let current := recent.getD (recent.length - 1) default
    let volumeTrend := countUpTicks recent
    let trendStrength := volumeTrend / ((recent.length : ℚ) - 1)
    let weightedVolume := weightedVolumeSum 0 recent
    let totalWeight := totalWeightSum 0 recent
    let avgVolume := weightedVolume / totalWeight
    let volumeRatio := current.volume / avgVolume
    let tradeRatio := (current.tradeCount : ℚ)
        / ((recent.getD (recent.length - 2) default).tradeCount : ℚ)
    let avgTradeSize := current.volume / (current.tradeCount : ℚ)
    .ok { volumeRatio := volumeRatio
          tradeCount := current.tradeCount
          avgTradeSize := avgTradeSize
          confidence := calculateConfidence volumeRatio tradeRatio avgTradeSize trendStrength
          volumeTrend := volumeTrend
          trendStrength := trendStrength
          weightedVolume := weightedVolume }

/-- Go `VolumeAnalyzer.Analyze`: windows 12/12/6 and weights 0.35/0.45/0.20
for the 5m/15m/1h timeframes; any timeframe error is returned as is. -/
def Analyze (prices5m prices15m prices1h : List Price) : Except String VolumeData :=
  match analyzeTimeframe prices5m 12 with
  | .error e => .error e
  | .ok m5 =>
    match analyzeTimeframe prices15m 12 with
    | .error e => .error e
    | .ok m15 =>
      match analyzeTimeframe prices1h 6 with
      | .error e => .error e
      | .ok m1h =>
        .ok { volumeRatio := m5.volumeRatio
              tradeCount := m5.tradeCount
              avgTradeSize := m5.avgTradeSize
              confidence := m5.confidence * (35/100) + m15.confidence * (45/100)
                + m1h.confidence * (20/100) }

end VolumeAnalyzer

/-! ### Technical and price analyzer confidence formulas -/

namespace TechnicalAnalyzer

/-- The package-level `calculateConfidence` of TechnicalAnalysis.go. -/
def calculateConfidence (emaDirection : ℤ) (emaSlope rsi : ℚ) : ℚ :=
  let c1 : ℚ := if emaDirection ≠ 0 then (4/10) * |emaSlope| * 100 else 0
  let c2 : ℚ :=
    if rsi > 70 ∨ rsi < 30 then 3/10
    else if rsi > 60 ∨ rsi < 40 then 2/10
    else 0
  min (c1 + c2) 1

end TechnicalAnalyzer

namespace PriceAnalyzer

/-- Go `PriceAnalyzer.calculateConfidence`: timeframe-alignment score times
a volatility discount. -/
def calculateConfidence (m5 m15 m1h m4h volatility : ℚ) : ℚ :=
  let alignmentScore : ℚ :=
    if (m5 > 0 ∧ m15 > 0 ∧ m1h > 0 ∧ m4h > 0) ∨ (m5 < 0 ∧ m15 < 0 ∧ m1h < 0 ∧ m4h < 0) then 1
    else if (m15 > 0 ∧ m1h > 0 ∧ m4h > 0) ∨ (m15 < 0 ∧ m1h < 0 ∧ m4h < 0) then 8/10
    else if (m1h > 0 ∧ m4h > 0) ∨ (m1h < 0 ∧ m4h < 0) then 6/10
    else 0
  let volatilityScore := max 0 (1 - volatility)
  alignmentScore * volatilityScore

end PriceAnalyzer

/-! ### Strategy evaluator confidence formulas -/

namespace LongStrategyV1

/-- `LongStrategy.calculateConfidence` of the additive variant: base 0.3 with
three possible 0.1 boosts, clamped above by 1.  (The Go method also resets
the minConfidence field to 0.3 as a side effect; the threshold comparison in
`Analyze` therefore uses 0.3.) -/
def calculateConfidence (vol : VolumeData) (tech : TechnicalData) (price : PriceData) : ℚ :=
  let c : ℚ := 3/10
  let c := if vol.volumeRatio > 1 then c + 1/10 else c
  let c := if tech.emaDirection > 0 then c + 1/10 else c
  let c := if tech.rsiValue > 40 ∧ tech.rsiValue < 60 then c + 1/10 else c
  min c 1

end LongStrategyV1

namespace LongStrategyV2

/-- `LongStrategy.applyModifiers` of the weighted variant. -/
def applyModifiers (base : ℚ) (vol : VolumeData) (tech : TechnicalData)
    (price : PriceData) : ℚ :=
  let conf := base
  let conf := if vol.volumeRatio > 2 then conf * (11/10) else conf
  let conf := if tech.rsiCrossAbove ∧ tech.emaDirection > 0 then conf * (11/10) else conf
  let conf := if price.volatility > 8/10 then conf * (9/10) else conf
  conf

/-- `LongStrategy.calculateConfidence` of the weighted variant: weights
0.30/0.35/0.35, modifiers, clamp above by 1. -/
def calculateConfidence (vol : VolumeData) (tech : TechnicalData) (price : PriceData) : ℚ :=
  min (applyModifiers
        (vol.confidence * (30/100) + tech.confidence * (35/100) + price.confidence * (35/100))
        vol tech price) 1

end LongStrategyV2

/-- The C6 counterexample candle: finite fields, negative volume. -/
def c6Candle : Price := { volume := -1, tradeCount := 1, close := 100 }

def c6Candles : List Price :=
  [c6Candle, c6Candle, c6Candle, c6Candle, c6Candle, c6Candle,
   c6Candle, c6Candle, c6Candle, c6Candle, c6Candle, c6Candle]

set_option maxRecDepth 8000 in
theorem c6_timeframe12 :
    VolumeAnalyzer.analyzeTimeframe c6Candles 12
      = Except.ok ⟨1, 1, -1, -(1/10000), 0, 0, -(2138428376721/100000000000)⟩ := by
  norm_num [VolumeAnalyzer.analyzeTimeframe, VolumeAnalyzer.calculateConfidence,
    VolumeAnalyzer.countUpTicks, VolumeAnalyzer.weightedVolumeSum,
    VolumeAnalyzer.totalWeightSum, c6Candles, c6Candle]

def c6Candles6 : List Price :=
  [c6Candle, c6Candle, c6Candle, c6Candle, c6Candle, c6Candle]

set_option maxRecDepth 8000 in
theorem c6_timeframe6 :
    VolumeAnalyzer.analyzeTimeframe c6Candles6 6
      = Except.ok ⟨1, 1, -1, -(1/10000), 0, 0, -(771561/100000)⟩ := by
  norm_num [VolumeAnalyzer.analyzeTimeframe, VolumeAnalyzer.calculateConfidence,
    VolumeAnalyzer.countUpTicks, VolumeAnalyzer.weightedVolumeSum,
    VolumeAnalyzer.totalWeightSum, c6Candles6, c6Candle]

/-- C6 counterexample: on a finite candle series with negative volumes the
Volume analyzer produces confidence -1/10000, outside [0,1] (its size
component has no lower clamp and its total no final clamp). -/
theorem C6_counterexample :
    (VolumeAnalyzer.Analyze c6Candles c6Candles c6Candles6).map (fun d => d.confidence)
      = Except.ok (-(1/10000))
    ∧ ¬ (0 ≤ (-(1/10000) : ℚ)) := by
  constructor
  · rw [VolumeAnalyzer.Analyze]
    simp only [c6_timeframe12, c6_timeframe6]
    simp only [Except.map]
    norm_num
  · norm_num

/-- An if-then-else of nonnegatives is nonnegative. -/
theorem iteNonnegQ {c : Prop} [Decidable c] {a b : ℚ} (ha : 0 ≤ a) (hb : 0 ≤ b) :
    0 ≤ if c then a else b := by
  split <;> assumption

/-- An if-then-else of bounded values is bounded. -/
theorem iteLeQ {c : Prop} [Decidable c] {a b m : ℚ} (ha : a ≤ m) (hb : b ≤ m) :
    (if c then a else b) ≤ m := by
  split <;> assumption

/-- C6 amended: the Technical-analyzer, Price-analyzer (given the
nonnegative volatility it is always fed) and evaluator confidences are in
[0,1] after clamping — the weighted evaluator given analyzer confidences
that are themselves nonnegative — and the Volume-analyzer confidence is in
[0,1] whenever its trade-size component is nonnegative and the trend
strength is in [0,1] (as holds for nonnegative volumes and positive trade
counts); with negative volumes it escapes [0,1] (see the counterexample). -/
theorem C6_confidence_clamped :
    (∀ (d : ℤ) (s r : ℚ),
      0 ≤ TechnicalAnalyzer.calculateConfidence d s r
      ∧ TechnicalAnalyzer.calculateConfidence d s r ≤ 1)
    ∧ (∀ m5 m15 m1h m4h v : ℚ, 0 ≤ v →
        0 ≤ PriceAnalyzer.calculateConfidence m5 m15 m1h m4h v
        ∧ PriceAnalyzer.calculateConfidence m5 m15 m1h m4h v ≤ 1)
    ∧ (∀ vr tr ts trend : ℚ, 0 ≤ ts → 0 ≤ trend → trend ≤ 1 →
        0 ≤ VolumeAnalyzer.calculateConfidence vr tr ts trend
        ∧ VolumeAnalyzer.calculateConfidence vr tr ts trend ≤ 1)
    ∧ (∀ (vol : VolumeData) (tech : TechnicalData) (price : PriceData),
        0 ≤ LongStrategyV1.calculateConfidence vol tech price
        ∧ LongStrategyV1.calculateConfidence vol tech price ≤ 1)
    ∧ (∀ (vol : VolumeData) (tech : TechnicalData) (price : PriceData),
        0 ≤ vol.confidence → 0 ≤ tech.confidence → 0 ≤ price.confidence →
        0 ≤ LongStrategyV2.calculateConfidence vol tech price
        ∧ LongStrategyV2.calculateConfidence vol tech price ≤ 1) := by
  refine ⟨?_, ?_, ?_, ?_, ?_⟩
  · intro d s r
    simp only [TechnicalAnalyzer.calculateConfidence]
    refine ⟨le_min ?_ (by norm_num), min_le_right _ _⟩
    have h1 : (0:ℚ) ≤ if d ≠ 0 then (4/10) * |s| * 100 else 0 :=
      iteNonnegQ (by positivity) le_rfl
    have h2 : (0:ℚ) ≤
        if r > 70 ∨ r < 30 then 3/10 else if r > 60 ∨ r < 40 then 2/10 else 0 :=
      iteNonnegQ (by norm_num) (iteNonnegQ (by norm_num) le_rfl)
    linarith
  · intro m5 m15 m1h m4h v hv
    simp only [PriceAnalyzer.calculateConfidence]
    have ha0 : (0:ℚ) ≤
        if (m5 > 0 ∧ m15 > 0 ∧ m1h > 0 ∧ m4h > 0) ∨ (m5 < 0 ∧ m15 < 0 ∧ m1h < 0 ∧ m4h < 0)
        then 1 else if (m15 > 0 ∧ m1h > 0 ∧ m4h > 0) ∨ (m15 < 0 ∧ m1h < 0 ∧ m4h < 0)
        then 8/10 else if (m1h > 0 ∧ m4h > 0) ∨ (m1h < 0 ∧ m4h < 0) then 6/10 else 0 :=
      iteNonnegQ (by norm_num) (iteNonnegQ (by norm_num)
        (iteNonnegQ (by norm_num) le_rfl))
    have ha1 :
        (if (m5 > 0 ∧ m15 > 0 ∧ m1h > 0 ∧ m4h > 0) ∨ (m5 < 0 ∧ m15 < 0 ∧ m1h < 0 ∧ m4h < 0)
        then (1:ℚ) else if (m15 > 0 ∧ m1h > 0 ∧ m4h > 0) ∨ (m15 < 0 ∧ m1h < 0 ∧ m4h < 0)
        then 8/10 else if (m1h > 0 ∧ m4h > 0) ∨ (m1h < 0 ∧ m4h < 0) then 6/10 else 0) ≤ 1 :=
      iteLeQ le_rfl (iteLeQ (by norm_num)
        (iteLeQ (by norm_num) (by norm_num)))
    have hv0 : (0:ℚ) ≤ max 0 (1 - v) := le_max_left 0 _
    have hv1 : max 0 (1 - v) ≤ 1 := max_le (by norm_num) (by linarith)
    exact ⟨mul_nonneg ha0 hv0, mul_le_one₀ ha1 hv0 hv1⟩
  · intro vr tr ts trend hts h0 h1
    simp only [VolumeAnalyzer.calculateConfidence]
    have hvol0 : (0:ℚ) ≤ max 0 (min ((vr - 13/10) / (2 - 13/10)) 1) := le_max_left 0 _
    have hvol1 : max 0 (min ((vr - 13/10) / (2 - 13/10)) 1) ≤ 1 :=
      max_le (by norm_num) (min_le_right _ _)
    have htr0 : (0:ℚ) ≤ max 0 (min ((tr - 12/10) / (2 - 12/10)) 1) := le_max_left 0 _
    have htr1 : max 0 (min ((tr - 12/10) / (2 - 12/10)) 1) ≤ 1 :=
      max_le (by norm_num) (min_le_right _ _)
    have hsz0 : (0:ℚ) ≤ min (ts / 1000) 1 := le_min (by positivity) (by norm_num)
    have hsz1 : min (ts / 1000) 1 ≤ 1 := min_le_right _ _
    constructor <;> nlinarith
  · intro vol tech price
    simp only [LongStrategyV1.calculateConfidence]
    constructor
    · refine le_min ?_ (by norm_num)
      split_ifs <;> norm_num
    · exact min_le_right _ _
  · intro vol tech price h1 h2 h3
    simp only [LongStrategyV2.calculateConfidence, LongStrategyV2.applyModifiers]
    have hb : 0 ≤ vol.confidence * (30/100) + tech.confidence * (35/100)
        + price.confidence * (35/100) := by positivity
    constructor
    · refine le_min ?_ (by norm_num)
      split_ifs <;> linarith
    · exact min_le_right _ _

/-- Witness for C6 amended: concrete in-range evaluations of each clamped
confidence formula. -/
theorem C6_confidence_clamped_witness :
    (0 ≤ TechnicalAnalyzer.calculateConfidence 1 (1/100) 50
      ∧ TechnicalAnalyzer.calculateConfidence 1 (1/100) 50 ≤ 1)
    ∧ (0 ≤ PriceAnalyzer.calculateConfidence 1 1 1 1 (1/2)
      ∧ PriceAnalyzer.calculateConfidence 1 1 1 1 (1/2) ≤ 1)
    ∧ (0 ≤ VolumeAnalyzer.calculateConfidence 2 2 500 (1/2)
      ∧ VolumeAnalyzer.calculateConfidence 2 2 500 (1/2) ≤ 1)
    ∧ (0 ≤ LongStrategyV1.calculateConfidence {} {} {}
      ∧ LongStrategyV1.calculateConfidence {} {} {} ≤ 1)
    ∧ (0 ≤ LongStrategyV2.calculateConfidence { confidence := 1/2 }
          { confidence := 1/2 } { confidence := 1/2 }
      ∧ LongStrategyV2.calculateConfidence { confidence := 1/2 }
          { confidence := 1/2 } { confidence := 1/2 } ≤ 1) :=
  ⟨C6_confidence_clamped.1 1 (1/100) 50,
   C6_confidence_clamped.2.1 1 1 1 1 (1/2) (by norm_num),
   C6_confidence_clamped.2.2.1 2 2 500 (1/2) (by norm_num) (by norm_num) (by norm_num),
   C6_confidence_clamped.2.2.2.1 {} {} {},
   C6_confidence_clamped.2.2.2.2 { confidence := 1/2 } { confidence := 1/2 }
     { confidence := 1/2 } (by norm_num) (by norm_num) (by norm_num)⟩

/-! ### Technical analyzer timeframe analysis (TechnicalAnalysis.go) -/

namespace TechnicalAnalyzer

/-- Go `TechnicalAnalyzer.analyzeTimeframe`.  The Go code never checks the
input length: with fewer than 21 closes the EMA(21) call returns `nil` and
the subsequent index expression panics (from 15 to 20 closes the RSI result
is `nil` and dereferencing panics); both panics are modelled as `none`. -/
def analyzeTimeframe (prices : List Price) : Option TechnicalData :=
  let closes := prices.map (·.close)
  let lastIndex := closes.length - 1
  match EMA.Calculate closes 8, EMA.Calculate closes 21 with
  | some ema8Values, some ema21Values =>
    let ema8 := ema8Values.getD lastIndex 0
    let ema21 := ema21Values.getD lastIndex 0
    let emaDirection : ℤ := if ema8 > ema21 then 1 else if ema8 < ema21 then -1 else 0
    let emaSlope : ℚ :=
      if 1 < ema8Values.length then
        (ema8Values.getD lastIndex 0 - ema8Values.getD (lastIndex - 1) 0)
          / ema8Values.getD (lastIndex - 1) 0
      else 0
    match RSI.Calculate closes 14 3 with
    | some rsiResult =>
      let currentRSI := rsiResult.rsi.getD lastIndex 0
      let currentSignal := rsiResult.signal.getD (rsiResult.signal.length - 1) 0
      let signal : ℤ :=
        if emaDirection > 0 ∧ currentRSI > 50 then 1
        else if emaDirection < 0 ∧ currentRSI < 50 then -1 else 0
      let rsiTrend : ℤ :=
        if currentRSI > currentSignal then 1
        else if currentRSI < currentSignal then -1 else 0
      some { signal := signal
             confidence := calculateConfidence emaDirection emaSlope currentRSI
             emaValue8 := ema8
             emaValue21 := ema21
             emaDirection := emaDirection
             emaSlope := emaSlope
             emaStrength := |emaSlope|
             rsiValue := currentRSI
             rsiSignal := currentSignal
             rsiHistogram := currentRSI - currentSignal
             rsiTrend := rsiTrend
             rsiStrength := |currentRSI - 50| / 50
             rsiCrossAbove := decide (1 < rsiResult.rsi.length
               ∧ rsiResult.rsi.getD (lastIndex - 1) 0 ≤ currentSignal
               ∧ currentRSI > currentSignal)
             rsiCrossBelow := decide (1 < rsiResult.rsi.length
               ∧ rsiResult.rsi.getD (lastIndex - 1) 0 ≥ currentSignal
               ∧ currentRSI < currentSignal) }
    | none => none
  | _, _ => none

/-- Go `TechnicalAnalyzer.weightSignals` (weights 0.30/0.35/0.20/0.15). -/
def weightSignals (m5 m15 m1h m4h : TechnicalData) : ℤ :=
  let ws := (m5.signal : ℚ) * (30/100) + (m15.signal : ℚ) * (35/100)
    + (m1h.signal : ℚ) * (20/100) + (m4h.signal : ℚ) * (15/100)
  if ws > 2/10 then 1 else if ws < -(2/10) then -1 else 0

/-- Go `TechnicalAnalyzer.weightConfidences`. -/
def weightConfidences (m5 m15 m1h m4h : TechnicalData) : ℚ :=
  m5.confidence * (30/100) + m15.confidence * (35/100)
    + m1h.confidence * (20/100) + m4h.confidence * (15/100)

/-- Go `TechnicalAnalyzer.Analyze`: per-timeframe analysis (a panic in any
timeframe aborts), weighted signal and confidence, 5m values carried over. -/
def Analyze (p5 p15 p1h p4h : List Price) : Option TechnicalData :=
  match analyzeTimeframe p5, analyzeTimeframe p15, analyzeTimeframe p1h,
      analyzeTimeframe p4h with
  | some m5, some m15, some m1h, some m4h =>
    some { m5 with
            signal := weightSignals m5 m15 m1h m4h
            confidence := weightConfidences m5 m15 m1h m4h }
  | _, _, _, _ => none

end TechnicalAnalyzer

/-! ### Price analyzer (PriceAnalysis.go) -/

namespace PriceAnalyzer

/-- The momentum loop: exponentially decayed (0.9 per step) relative close
changes, plus the total weight. -/
def momentumAux : ℚ → Price → List Price → ℚ × ℚ
  | _, _, [] => (0, 0)
  | w, prev, p :: ps =>
    let rest := momentumAux (w * (9/10)) p ps
    ((p.close - prev.close) / prev.close * w + rest.1, w + rest.2)

/-- Go `PriceAnalyzer.calculateTimeframeMomentum`: slicing a series shorter
than the window panics (`none`). -/
def calculateTimeframeMomentum (prices : List Price) (window : ℕ) : Option ℚ :=
  if prices.length < window then none
  else
    match prices.drop (prices.length - window) with
    | [] => some 0
    | r :: rest =>
      let mt := momentumAux 1 r rest
      some (mt.1 / mt.2)

/-- Go `PriceAnalyzer.calculateVolatility`: population-style mean square of
relative deviations from the last close over the trailing 12 candles, passed
to the square root.  `math.Sqrt` is an opaque floating-point library routine
and is modelled as an explicit function parameter `sqrtQ`. -/
def calculateVolatility (sqrtQ : ℚ → ℚ) (prices : List Price) : Option ℚ :=
  if prices.length < 12 then none
  else
    let window := prices.drop (prices.length - 12)
    let mean := (window.getD (window.length - 1) default).close
    let sumSquares := window.foldl (fun acc p => acc + ((p.close - mean) / mean) ^ 2) 0
    some (sqrtQ (sumSquares / (window.length : ℚ)))

/-- Go `PriceAnalyzer.Analyze` (weights 0.15/0.25/0.35/0.25). -/
def Analyze (sqrtQ : ℚ → ℚ) (p5 p15 p1h p4h : List Price) : Option PriceData :=
  match calculateTimeframeMomentum p5 12, calculateTimeframeMomentum p15 12,
      calculateTimeframeMomentum p1h 6, calculateTimeframeMomentum p4h 6 with
  | some m5, some m15, some m1h, some m4h =>
    let weightedMomentum := m5 * (15/100) + m15 * (25/100) + m1h * (35/100) + m4h * (25/100)
    match calculateVolatility sqrtQ p5 with
    | none => none
    | some volatility =>
      let signal : ℤ :=
        if weightedMomentum > 1/1000 then 1
        else if weightedMomentum < -(1/1000) then -1 else 0
      some { current := (p5.getD (p5.length - 1) default).close
             momentum := weightedMomentum
             volatility := volatility
             confidence := calculateConfidence m5 m15 m1h m4h volatility
             signal := signal }
  | _, _, _, _ => none

end PriceAnalyzer

/-! ### The additive Long evaluator (part of the strategy package) -/

namespace LongStrategyV1

/-- Go `LongStrategy.validateLongSetup` (additive variant): loose RSI band,
any upward EMA movement, basic volume floor. -/
def validateLongSetup (vol : VolumeData) (tech : TechnicalData) (price : PriceData) : Bool :=
  (decide (tech.rsiValue < 75) && decide (tech.rsiValue > 25))
  && (decide (tech.emaDirection ≥ 0) || decide (tech.emaSlope > 0))
  && decide (vol.volumeRatio > 45/100)

/-- Go `LongStrategy.Analyze` (additive variant): a volume-analysis error is
wrapped and returned as an error; a panic inside the technical or price
analyzer (`none`) propagates; otherwise validation and the confidence
threshold (0.3, after the in-method mutation) produce the result. -/
def Analyze (sqrtQ : ℚ → ℚ) (p5 p15 p1h p4h : List Price) :
    Option (Except String StrategyResult) :=
  match VolumeAnalyzer.Analyze p5 p15 p1h with
  | .error e => some (.error ("volume analysis failed: " ++ e))
  | .ok volAnalysis =>
    match TechnicalAnalyzer.Analyze p5 p15 p1h p4h with
    | none => none
    | some techAnalysis =>
      match PriceAnalyzer.Analyze sqrtQ p5 p15 p1h p4h with
      | none => none
      | some priceAnalysis =>
        some (.ok (
          if ¬ validateLongSetup volAnalysis techAnalysis priceAnalysis then
            { isValid := false, reason := "conditions not met", confidence := 0 }
          else
            let confidence := calculateConfidence volAnalysis techAnalysis priceAnalysis
            if confidence < 3/10 then
              { isValid := false, reason := "low confidence", confidence := 0 }
            else
              let currentPrice := (p5.getD (p5.length - 1) default).close
              { isValid := true
                direction := "long"
                entryPrice := currentPrice
                stopLoss := currentPrice * (1 - 6/1000)
                takeProfit := currentPrice * (1 + 1/100)
                confidence := confidence
                volume := volAnalysis
                technical := techAnalysis
                price := priceAnalysis }))

end LongStrategyV1

/-- A technical-analyzer timeframe with fewer than 21 candles panics
(modelled `none`): the nil EMA(21) slice is indexed without a check. -/
theorem techAnalyzeTimeframe_eq_none {prices : List Price} (h : prices.length < 21) :
    TechnicalAnalyzer.analyzeTimeframe prices = none := by
  unfold TechnicalAnalyzer.analyzeTimeframe
  have h21 : EMA.Calculate (prices.map (fun p => p.close)) 21 = none := by
    apply EMA.Calculate_eq_none
    right
    simp only [List.length_map]
    exact_mod_cast h
  rcases h8 : EMA.Calculate (prices.map (fun p => p.close)) 8 with _ | v <;>
    simp [h8, h21]

/-- The volume analyzer accepts the C6/C7 candle lists. -/
theorem c7_volAnalyze_ok :
    VolumeAnalyzer.Analyze c6Candles c6Candles c6Candles6
      = Except.ok ⟨1, 1, -1, -(1/10000)⟩ := by
  rw [VolumeAnalyzer.Analyze]
  simp only [c6_timeframe12, c6_timeframe6]
  norm_num

/-- The technical analyzer panics on the same lists (every timeframe is
shorter than 21 candles). -/
theorem c7_techAnalyze_none :
    TechnicalAnalyzer.Analyze c6Candles c6Candles c6Candles6 c6Candles6 = none := by
  unfold TechnicalAnalyzer.Analyze
  rw [techAnalyzeTimeframe_eq_none (by simp [c6Candles])]

/-- A three-candle series, shorter than every analyzer window. -/
def c7Short : List Price := [c6Candle, c6Candle, c6Candle]

/-- C7 counterexample: on input shorter than the indicator lookback the
consuming stages do not degrade to an invalid StrategyResult — the
Technical analyzer panics (12-candle timeframes), the whole Long evaluator
therefore panics, and on volume-short input the evaluator surfaces an error
value rather than an invalid result. -/
theorem C7_counterexample :
    TechnicalAnalyzer.analyzeTimeframe c6Candles = none
    ∧ LongStrategyV1.Analyze id c6Candles c6Candles c6Candles6 c6Candles6 = none
    ∧ LongStrategyV1.Analyze id c7Short c7Short c7Short c7Short
        = some (.error "volume analysis failed: insufficient data, need 12 bars") := by
  refine ⟨techAnalyzeTimeframe_eq_none (by simp [c6Candles]), ?_, ?_⟩
  · unfold LongStrategyV1.Analyze
    rw [c7_volAnalyze_ok]
    rw [c7_techAnalyze_none]
  · rfl

/-- C7 amended: each indicator signals insufficient data explicitly (EMA and
RSI return nil, the Volume analyzer an error value), but the consuming
stages do not all degrade gracefully: the evaluator propagates the volume
error as an error, and the Technical analyzer has no length check and
panics on any input shorter than 21 candles. -/
theorem C7_insufficient_data (prices : List ℚ) (cand : List Price)
    (period smoothPeriod : ℤ) (window : ℕ) :
    ((period ≤ 0 ∨ (prices.length : ℤ) < period) → EMA.Calculate prices period = none)
    ∧ ((prices.length : ℤ) < period + 1 → RSI.Calculate prices period smoothPeriod = none)
    ∧ (cand.length < window → VolumeAnalyzer.analyzeTimeframe cand window
        = .error ("insufficient data, need " ++ toString window ++ " bars"))
    ∧ (cand.length < 21 → TechnicalAnalyzer.analyzeTimeframe cand = none) := by
  refine ⟨EMA.Calculate_eq_none, ?_, ?_, techAnalyzeTimeframe_eq_none⟩
  · intro h
    unfold RSI.Calculate
    dsimp only
    rw [if_pos h]
  · intro h
    unfold VolumeAnalyzer.analyzeTimeframe
    rw [if_pos h]

/-- Witness for C7 amended: concrete short inputs for each stage. -/
theorem C7_insufficient_data_witness :
    EMA.Calculate [(1 : ℚ)] 2 = none
    ∧ RSI.Calculate [(1 : ℚ), 2] 2 2 = none
    ∧ VolumeAnalyzer.analyzeTimeframe [c6Candle] 12
        = .error "insufficient data, need 12 bars"
    ∧ TechnicalAnalyzer.analyzeTimeframe [c6Candle] = none :=
  ⟨(C7_insufficient_data [1] [c6Candle] 2 2 12).1 (Or.inr (by norm_num)),
   (C7_insufficient_data [(1 : ℚ), 2] [c6Candle] 2 2 12).2.1 (by norm_num),
   (C7_insufficient_data [1] [c6Candle] 2 2 12).2.2.1 (by norm_num),
   (C7_insufficient_data [1] [c6Candle] 2 2 12).2.2.2 (by norm_num)⟩

/-! ### Backtest engine run loop (BacktestEngine.go) -/

namespace Engine

/-- backtest.Config (the fields the engine reads). -/
structure Config where
  initialBalance : ℚ := 0
  leverage : ℤ := 0
  riskPerTrade : ℚ := 0
deriving DecidableEq, Inhabited

/-- backtest.NewConfig defaults: 10 USDT, 50x, 2% risk per trade. -/
def NewConfig : Config := { initialBalance := 10, leverage := 50, riskPerTrade := 2/100 }

/-- The engine state mutated over a run. -/
structure State where
  currentBalance : ℚ := 0
  maxBalance : ℚ := 0
  trades : List Trade := []
  equityCurve : List EquityPoint := []
deriving DecidableEq, Inhabited

/-- Go `NewEngine`: balances start at the configured initial balance. -/
def NewEngine (cfg : Config) : State :=
  { currentBalance := cfg.initialBalance, maxBalance := cfg.initialBalance }

/-- Go `Engine.updateBalance`. -/
def updateBalance (st : State) (pnl : ℚ) : State :=
  let b := st.currentBalance + pnl
  let mb := if b > st.maxBalance then b else st.maxBalance
  let b2 := if b < 0 then 0 else b
  { st with currentBalance := b2, maxBalance := mb }

/-- Go `Engine.updateEquityCurve`: appends one point carrying the current
balance. -/
def updateEquityCurve (st : State) (timestamp : ℤ) : State :=
  { st with equityCurve :=
      st.equityCurve ++ [{ timestamp := timestamp, balance := st.currentBalance }] }

/-- Go `Engine.openPosition`: sized from the initial balance, risk fraction
and leverage over the entry close. -/
def openPosition (cfg : Config) (result : StrategyResult) (price : Price) : Trade :=
  { symbol := price.symbol
    entryTime := price.openTime
    side := result.direction
    entryPrice := price.close
    size := cfg.initialBalance * cfg.riskPerTrade * (cfg.leverage : ℚ) / price.close
    stopLoss := result.stopLoss
    takeProfit := result.takeProfit }

/-- Go `Engine.closePosition`: updates the balance and appends the closed
trade.  No equity point is appended here. -/
def closePosition (cfg : Config) (st : State) (trade : Trade) (price : Price)
    (reason : String) : State :=
  let t := closeTrade cfg.leverage trade price reason
  let st2 := updateBalance st t.pnl
  { st2 with trades := st2.trades ++ [t] }

/-- The `sort.Slice` call on open times, rendered as insertion sort. -/
def insertByOpenTime (p : Price) : List Price → List Price
  | [] => [p]
  | q :: qs => if p.openTime < q.openTime then p :: q :: qs else q :: insertByOpenTime p qs

def sortByOpenTime : List Price → List Price
  | [] => []
  | p :: ps => insertByOpenTime p (sortByOpenTime ps)

/-- One iteration of the candle loop of `Engine.runSymbol`: skip candles out
of range; with an open position only test the exit; when flat, analyze the
trailing 200-candle window and open on a valid result (appending an equity
point); an analysis error aborts the symbol. -/
def step (cfg : Config) (analyze : List Price → Except String StrategyResult)
    (prices : List Price) (startTime endTime : ℤ)
    (acc : State × Option Trade) (i : ℕ) : Except String (State × Option Trade) :=
  let st := acc.1
  let active := acc.2
  let currentPrice := prices.getD i default
  if currentPrice.openTime < startTime ∨ endTime < currentPrice.openTime then
    .ok (st, active)
  else
    match active with
    | some pos =>
      if shouldExitPosition pos currentPrice then
        .ok (closePosition cfg st pos currentPrice (getExitReason pos currentPrice), none)
      else
        .ok (st, some pos)
    | none =>
      match analyze ((prices.drop (i - 200)).take 201) with
      | .error e => .error ("error analyzing strategy: " ++ e)
      | .ok result =>
        if result.isValid then
          .ok (updateEquityCurve st currentPrice.openTime,
               some (openPosition cfg result currentPrice))
        else
          .ok (st, none)

/-- The candle loop over indices 200..len-1. -/
def runLoop (cfg : Config) (analyze : List Price → Except String StrategyResult)
    (prices : List Price) (startTime endTime : ℤ) :
    List ℕ → State × Option Trade → Except String (State × Option Trade)
  | [], acc => .ok acc
  | i :: is, acc =>
    match step cfg analyze prices startTime endTime acc i with
    | .error e => .error e
    | .ok acc2 => runLoop cfg analyze prices startTime endTime is acc2

/-- Go `Engine.runSymbol`: fetch, demand at least 200 candles (otherwise an
"insufficient data" error), sort, loop from index 200. -/
def runSymbol (cfg : Config) (analyze : List Price → Except String StrategyResult)
    (fetch : Except String (List Price)) (symbol : String)
    (startTime endTime : ℤ) (st : State) : Except String State :=
  match fetch with
  | .error e => .error e
  | .ok prices =>
    if prices.length < 200 then .error ("insufficient data for " ++ symbol)
    else
      let sorted := sortByOpenTime prices
      match runLoop cfg analyze sorted startTime endTime
          (List.range' 200 (sorted.length - 200)) (st, none) with
      | .error e => .error e
      | .ok acc => .ok acc.1

/-- Go `Engine.RunBacktest`: symbols in order, the first `runSymbol` error
aborts the whole run (`return nil, err`); on success the final engine state
(from which the results are aggregated) is returned. -/
def RunBacktest (cfg : Config) (analyze : List Price → Except String StrategyResult)
    (fetch : String → Except String (List Price)) (startTime endTime : ℤ) :
    List String → State → Except String State
  | [], st => .ok st
  | sym :: rest, st =>
    match runSymbol cfg analyze (fetch sym) sym startTime endTime st with
    | .error e => .error e
    | .ok st2 => RunBacktest cfg analyze fetch startTime endTime rest st2

end Engine

/-- C8 amended: the engine does not skip a failing symbol; a data-access
error or an insufficient-data symbol makes the whole backtest return that
error at once, and the remaining symbols are not processed. -/
theorem C8_symbol_failure_aborts (cfg : Engine.Config)
    (analyze : List Price → Except String StrategyResult)
    (fetch : String → Except String (List Price)) (s e : ℤ)
    (sym : String) (rest : List String) (st : Engine.State) :
    (∀ l, fetch sym = .ok l → l.length < 200 →
      Engine.RunBacktest cfg analyze fetch s e (sym :: rest) st
        = .error ("insufficient data for " ++ sym))
    ∧ (∀ msg, fetch sym = .error msg →
      Engine.RunBacktest cfg analyze fetch s e (sym :: rest) st = .error msg) := by
  constructor
  · intro l hl hlen
    unfold Engine.RunBacktest Engine.runSymbol
    rw [hl]
    dsimp only
    rw [if_pos hlen]
  · intro msg hmsg
    unfold Engine.RunBacktest Engine.runSymbol
    rw [hmsg]

/-- A flat synthetic candle series: open times t0, t0+1, …; the bar range
[99.5, 100.5] stays inside the c9 stop/target levels. -/
def mkCandlesFrom (t0 : ℤ) (n : ℕ) : List Price :=
  (List.range n).map fun i =>
    { symbol := "X", openTime := t0 + (i : ℤ), openP := 100, high := 100 + 1/2,
      low := 99 + 1/2, close := 100, volume := 1, tradeCount := 1 }

/-- C8 counterexample fetch: symbol A has only 100 candles (insufficient
warm-up), symbol B has 300. -/
def c8Fetch : String → Except String (List Price) :=
  fun sym => if sym = "A" then .ok (mkCandlesFrom 0 100) else .ok (mkCandlesFrom 0 300)

/-- C8 counterexample: with symbols [A, B] where A has insufficient warm-up
data, the whole run returns the error — symbol B is never processed and
nothing is reported. -/
theorem C8_counterexample :
    Engine.RunBacktest Engine.NewConfig (fun _ => .ok {}) c8Fetch 0 1000000
        ["A", "B"] (Engine.NewEngine Engine.NewConfig)
      = .error "insufficient data for A" := by
  rfl

/-- Witness for C8 amended: a data-access failure for the first symbol
aborts the whole two-symbol run with that error. -/
theorem C8_symbol_failure_aborts_witness :
    Engine.RunBacktest Engine.NewConfig (fun _ => .ok {})
        (fun sym => if sym = "A" then .error "db unavailable" else .ok (mkCandlesFrom 0 300))
        0 1000000 ["A", "B"] (Engine.NewEngine Engine.NewConfig)
      = .error "db unavailable" :=
  (C8_symbol_failure_aborts Engine.NewConfig (fun _ => .ok {})
      (fun sym => if sym = "A" then .error "db unavailable" else .ok (mkCandlesFrom 0 300))
      0 1000000 "A" ["B"] (Engine.NewEngine Engine.NewConfig)).2 "db unavailable" rfl

/-- The always-valid long signal used in the C9 runs. -/
def c9Analyze : List Price → Except String StrategyResult :=
  fun _ => .ok { isValid := true, direction := "long", entryPrice := 100,
                 stopLoss := 1, takeProfit := 200, confidence := 1/2 }

/-- C9 counterexample fetch: symbol A trades at open times 1000..1200,
symbol B at 0..200. -/
def c9Fetch : String → Except String (List Price) :=
  fun sym => if sym = "A" then .ok (mkCandlesFrom 1000 201) else .ok (mkCandlesFrom 0 201)

set_option maxRecDepth 100000 in
/-- C9 counterexample: a single-symbol run that only opens a position ends
with one EquityPoint and zero closed trades (the point is appended on open,
not on close), and a two-symbol run appends equity timestamps [1200, 200],
which are not monotonically ordered. -/
theorem C9_counterexample :
    (Engine.RunBacktest Engine.NewConfig c9Analyze c9Fetch 0 1000000 ["B"]
        (Engine.NewEngine Engine.NewConfig)).map
        (fun st => (st.equityCurve.length, st.trades.length)) = .ok (1, 0)
    ∧ (Engine.RunBacktest Engine.NewConfig c9Analyze c9Fetch 0 1000000 ["A", "B"]
        (Engine.NewEngine Engine.NewConfig)).map
        (fun st => st.equityCurve.map (fun p => p.timestamp)) = .ok [1200, 200]
    ∧ ¬ ((1200 : ℤ) ≤ 200) := by
  refine ⟨by rfl, by rfl, by norm_num⟩

namespace Simulator

/-- The Simulator state (balance, open positions per symbol, collected
results). -/
structure State where
  balance : ℚ := 0
  positions : List (String × Trade) := []
  resTrades : List Trade := []
  resEquity : List EquityPoint := []
deriving DecidableEq, Inhabited

/-- Go `Simulator.updateBalance`: applies the pnl, clamps at zero, and
appends one EquityPoint.  The Go timestamp is `time.Now()`, modelled as the
explicit wall-clock argument `now`. -/
def updateBalance (now : ℤ) (st : State) (pnl : ℚ) : State :=
  let b := st.balance + pnl
  let b2 := if b ≤ 0 then 0 else b
  { st with balance := b2
            resEquity := st.resEquity ++ [{ timestamp := now, balance := b2 }] }

/-- Go `Simulator.calculatePositionSize`: risk fraction of the balance,
levered, over the entry price. -/
def calculatePositionSize (riskPerTrade : ℚ) (leverage : ℤ) (balance price : ℚ) : ℚ :=
  balance * riskPerTrade * (leverage : ℚ) / price

/-- Go `Simulator.closePosition`: compute the closed trade, update the
balance (appending the equity point), store the trade, drop the position. -/
def closePosition (leverage : ℤ) (now : ℤ) (st : State) (pos : Trade)
    (candle : Price) : State :=
  let t := closeTrade leverage pos candle
  let st2 := updateBalance now st t.pnl
  { st2 with resTrades := st2.resTrades ++ [t]
             positions := st2.positions.filter (fun kv => kv.1 ≠ pos.symbol) }

/-- Go `Simulator.openPosition`: records the new position keyed by symbol;
the equity curve and the trade list are untouched. -/
def openPosition (riskPerTrade : ℚ) (leverage : ℤ) (st : State) (symbol : String)
    (result : StrategyResult) (candle : Price) : State :=
  let size := calculatePositionSize riskPerTrade leverage st.balance result.entryPrice
  let pos : Trade :=
    { symbol := symbol, entryTime := candle.openTime, side := result.direction,
      entryPrice := candle.close, size := size, stopLoss := result.stopLoss,
      takeProfit := result.takeProfit }
  { st with positions := (symbol, pos) :: st.positions.filter (fun kv => kv.1 ≠ symbol) }

end Simulator

/-- C9 amended: the Engine appends an EquityPoint when a position is opened
(timestamped with the opening candle, carrying the running balance) and none
when it closes one; the Simulator appends exactly one EquityPoint per close
(inside updateBalance, timestamped with the wall clock) and its openPosition
leaves the equity curve and the trade list unchanged. -/
theorem C9_equity_per_event (cfg : Engine.Config) (st : Engine.State) (trade : Trade)
    (price : Price) (reason : String)
    (analyze : List Price → Except String StrategyResult) (prices : List Price)
    (s e : ℤ) (i : ℕ) (r : StrategyResult) (lev now : ℤ) (sst : Simulator.State)
    (pos : Trade) (candle : Price) (risk : ℚ) (sym : String) (res : StrategyResult) :
    ((Engine.closePosition cfg st trade price reason).equityCurve = st.equityCurve
      ∧ (Engine.closePosition cfg st trade price reason).trades
          = st.trades ++ [Engine.closeTrade cfg.leverage trade price reason])
    ∧ (¬ ((prices.getD i default).openTime < s ∨ e < (prices.getD i default).openTime) →
        analyze ((prices.drop (i - 200)).take 201) = .ok r → r.isValid = true →
        Engine.step cfg analyze prices s e (st, none) i
          = .ok ({ st with equityCurve := st.equityCurve
                    ++ [{ timestamp := (prices.getD i default).openTime,
                          balance := st.currentBalance }] },
                 some (Engine.openPosition cfg r (prices.getD i default))))
    ∧ ((Simulator.closePosition lev now sst pos candle).resEquity
          = sst.resEquity ++ [⟨now, (Simulator.updateBalance now sst
                (Simulator.closeTrade lev pos candle).pnl).balance⟩]
      ∧ (Simulator.closePosition lev now sst pos candle).resTrades
          = sst.resTrades ++ [Simulator.closeTrade lev pos candle])
    ∧ ((Simulator.openPosition risk lev sst sym res candle).resEquity = sst.resEquity
      ∧ (Simulator.openPosition risk lev sst sym res candle).resTrades = sst.resTrades) := by
  refine ⟨⟨rfl, rfl⟩, ?_, ⟨rfl, rfl⟩, ⟨rfl, rfl⟩⟩
  intro htime ha hr
  unfold Engine.step
  rw [if_neg htime]
  dsimp only
  rw [ha]
  dsimp only
  rw [if_pos hr]
  rfl

set_option maxRecDepth 100000 in
/-- Witness for C9 amended: the opening step of a concrete flat run appends
exactly one EquityPoint carrying the opening candle time and the running
balance. -/
theorem C9_equity_per_event_witness :
    Engine.step Engine.NewConfig c9Analyze (mkCandlesFrom 0 201) 0 1000000
        (Engine.NewEngine Engine.NewConfig, none) 200
      = .ok ({ Engine.NewEngine Engine.NewConfig with
                equityCurve := (Engine.NewEngine Engine.NewConfig).equityCurve
                  ++ [{ timestamp := ((mkCandlesFrom 0 201).getD 200 default).openTime,
                        balance := (Engine.NewEngine Engine.NewConfig).currentBalance }] },
             some (Engine.openPosition Engine.NewConfig
               { isValid := true, direction := "long", entryPrice := 100,
                 stopLoss := 1, takeProfit := 200, confidence := 1/2 }
               ((mkCandlesFrom 0 201).getD 200 default))) :=
  (C9_equity_per_event Engine.NewConfig (Engine.NewEngine Engine.NewConfig)
    default default "" c9Analyze (mkCandlesFrom 0 201) 0 1000000 200
    { isValid := true, direction := "long", entryPrice := 100,
      stopLoss := 1, takeProfit := 200, confidence := 1/2 }
    0 0 default default default 0 "" default).2.1 (by decide) rfl rfl
